import Mathlib

/-!
Verification of the Docx-Suggestion-AI-Agent document session and
change-application engine, together with the React widget variants
(frontend App component, ChatGPT variant and standalone variant).

The backend core (document store, suggestion generator, session registry,
change applicator) is described by the specification; its `server.py` is
not among the available source files, so the core definitions below are
modelled from the specification text (each such definition says so in its
doc comment).  The widget definitions are embedded from the two App
component source files, which contain the `toggleSuggestion`,
`handleApplyChanges` and `handleSetGlobals` handlers and the apply-button
guard `disabled={selectedSuggestions.size === 0 || status === 'applying'}`.

Text is modelled as `List Char` so that span offsets are plain indices.
-/

namespace DocxAgent

/-- The apostrophe character, built numerically (code point 39). -/
def apos : Char := Char.ofNat 39

/-- Modelled from the spec: a suggestion record
`{id, unit_index, original, proposed, rationale}` (spec section 3 and the
design note in section 9). -/
structure Suggestion where
  id : Nat
  unit_index : Nat
  original : List Char
  proposed : List Char
  rationale : String
deriving DecidableEq, Repr

/-- Modelled from the spec: the core (identifier-free) content of a
suggestion, the tuple `(unit index, original, proposed, rationale)` that
section 8 requires to be deterministic across generate calls. -/
structure SugCore where
  unit_index : Nat
  original : List Char
  proposed : List Char
  rationale : String
deriving DecidableEq, Repr

/-- Forget the identifier of a suggestion, keeping the deterministic core. -/
def Suggestion.core (s : Suggestion) : SugCore :=
  ⟨s.unit_index, s.original, s.proposed, s.rationale⟩

/-- The starting indices of every occurrence of `pat` in the text, scanning
left to right (`i` is the index of the head of the remaining text). -/
def occsFrom (pat : List Char) : List Char → Nat → List Nat
  | [], i => if pat = [] then [i] else []
  | c :: cs, i =>
      (if pat.isPrefixOf (c :: cs) then [i] else []) ++ occsFrom pat cs (i + 1)

/-- All starting indices of occurrences of `pat` in `text`. -/
def occurrences (pat text : List Char) : List Nat :=
  occsFrom pat text 0

/-- The characters of the contraction `don't`. -/
def dontChars : List Char := ['d', 'o', 'n', apos, 't']

/-- The characters of the expansion `do not`. -/
def doNotChars : List Char := ['d', 'o', ' ', 'n', 'o', 't']

/-- Modelled from the spec: the baseline contraction table of rule (a) in
section 4.2.  The specification pins exactly one entry concretely (the
section 8 scenario: original `don't`, proposed `do not`); the table is
modelled as that pinned entry. -/
def contractions : List (List Char × List Char) :=
  [(dontChars, doNotChars)]

/-- Word counter: counts maximal runs of non-space characters.  The flag
records whether the scan is currently inside a word. -/
def wcAux : List Char → Bool → Nat
  | [], _ => 0
  | c :: cs, inw =>
      if c = ' ' then wcAux cs false
      else (if inw then 0 else 1) + wcAux cs true

/-- The number of words of a unit text. -/
def wordCount (u : List Char) : Nat := wcAux u false

/-- Modelled from the spec: the shortened rewrite proposed by rule (b) of
section 4.2.  The spec does not pin the rewrite text, only its rationale;
the rewrite is modelled as a truncation of the unit. -/
def shorten (u : List Char) : List Char := u.take 100

/-- Modelled from the spec: the baseline rule set of section 4.2 applied to
one unit `u` at index `k` — rule (a): one suggestion per contraction
occurrence with rationale "expand contraction"; rule (b): one shortened
rewrite when the word count exceeds 30, with rationale
"shorten long passage". -/
def unitSuggestions (k : Nat) (u : List Char) : List SugCore :=
  (contractions.flatMap fun pr =>
    (occurrences pr.1 u).map fun _ => ⟨k, pr.1, pr.2, "expand contraction"⟩)
  ++ (if 30 < wordCount u then [⟨k, u, shorten u, "shorten long passage"⟩] else [])

/-- Modelled from the spec: the rule set applied to every unit of the
document in order, the index `k` tracking the zero-based unit index. -/
def generateFrom (k : Nat) : List (List Char) → List SugCore
  | [] => []
  | u :: us => unitSuggestions k u ++ generateFrom (k + 1) us

/-- Modelled from the spec: the suggestion generator of section 4.2,
`generate(document snapshot, instruction) -> ordered sequence of
suggestions`.  The baseline rules fire independently of the instruction
text; the generator is a pure function of its arguments. -/
def generate (units : List (List Char)) (instruction : String) : List SugCore :=
  let _ := instruction
  generateFrom 0 units

/-- Modelled from the spec: fresh identifier assignment (section 4.2:
suggestion identifiers are fresh per call, never reused across
generations), driven by a monotone counter starting at `n`. -/
def assignIds (n : Nat) : List SugCore → List Suggestion
  | [] => []
  | c :: cs => ⟨n, c.unit_index, c.original, c.proposed, c.rationale⟩ :: assignIds (n + 1) cs

/-- Modelled from the spec: a session (section 3) binding the document unit
sequence to its current live suggestion generation; `nextId` is the fresh
identifier counter that makes stale-id rejection possible. -/
structure Session where
  units : List (List Char)
  sugs : List Suggestion
  nextId : Nat
deriving DecidableEq, Repr

/-- Modelled from the spec: the analyze call — the generator runs on the
current snapshot and its output, with fresh identifiers, wholly replaces
the previous suggestion generation (section 3, lifecycle summary). -/
def analyze (s : Session) (instruction : String) : Session :=
  let core := generate s.units instruction
  { units := s.units, sugs := assignIds s.nextId core, nextId := s.nextId + core.length }

/-- Every identifier in the session is below the fresh-id counter. -/
def idsBelow (s : Session) : Prop := ∀ g ∈ s.sugs, g.id < s.nextId

instance (s : Session) : Decidable (idsBelow s) := by
  unfold idsBelow; infer_instance

/-- Modelled from the spec: the error taxonomy of the apply call
(section 7); `ConflictError` is per-suggestion and aggregated into the
result rather than raised, so it is not a member of this type. -/
inductive ApplyError
  | NotFoundError
  | StaleSuggestionError
  | EmptySelectionError
deriving DecidableEq, Repr

/-- The index of the first verbatim occurrence of `pat` in the text, or
`none` when the span is not found. -/
def firstOcc (pat : List Char) : List Char → Option Nat
  | [] => if pat = [] then some 0 else none
  | c :: cs =>
      if pat.isPrefixOf (c :: cs) then some 0
      else (firstOcc pat cs).map (· + 1)

/-- Insert a resolved suggestion (paired with its span start offset) into a
start-sorted list, before the first entry with a strictly larger start, so
that repeated insertion is a stable ascending sort by start offset. -/
def insertByStart (p : Suggestion × Nat) :
    List (Suggestion × Nat) → List (Suggestion × Nat)
  | [] => [p]
  | q :: qs => if p.2 ≤ q.2 then p :: q :: qs else q :: insertByStart p qs

/-- Stable ascending sort of resolved suggestions by span start offset
(spec section 4.3 step 3). -/
def sortByStart : List (Suggestion × Nat) → List (Suggestion × Nat)
  | [] => []
  | p :: ps => insertByStart p (sortByStart ps)

/-- Modelled from the spec: the overlap sweep of section 4.3 step 3 over a
start-sorted list.  `lastEnd` is the end offset of the last applied span;
a span starting before it overlaps an already-applied span and is marked
`ConflictError` (its identifier lands in the second component); the rest
of the batch still proceeds. -/
def sweep (lastEnd : Nat) :
    List (Suggestion × Nat) → List (Suggestion × Nat) × List Nat
  | [] => ([], [])
  | (s, st) :: rest =>
      if st < lastEnd then
        let r := sweep lastEnd rest
        (r.1, s.id :: r.2)
      else
        let r := sweep (st + s.original.length) rest
        ((s, st) :: r.1, r.2)

/-- Rebuild the unit text from the disjoint, start-sorted spans to apply:
keep the text from the cursor up to each span start, substitute the
proposed text for the original span, and continue past the span. -/
def rebuild (t : List Char) (cursor : Nat) :
    List (Suggestion × Nat) → List Char
  | [] => t.drop cursor
  | (s, st) :: rest =>
      (t.drop cursor).take (st - cursor) ++ s.proposed
        ++ rebuild t (st + s.original.length) rest

/-- Modelled from the spec: per-unit application (section 4.3 steps 2–3).
Each accepted suggestion resolves its original span to the first verbatim
occurrence in the unit text (not found → `ConflictError`, skipped);
resolved spans are applied in ascending start-offset order, later spans
overlapping an applied one are marked `ConflictError` and skipped.
Returns (new unit text, applied identifiers, conflicted identifiers). -/
def applyUnit (t : List Char) (acc : List Suggestion) :
    List Char × List Nat × List Nat :=
  let resolved := acc.filterMap fun s => (firstOcc s.original t).map fun st => (s, st)
  let notFound := (acc.filter fun s => firstOcc s.original t = none).map (·.id)
  let swept := sweep 0 (sortByStart resolved)
  (rebuild t 0 swept.1, swept.1.map (fun p => p.1.id), notFound ++ swept.2)

/-- The accepted suggestions of the current generation that target unit
`k`, in generation order (section 4.3 step 1: group by target unit). -/
def acceptedFor (sugs : List Suggestion) (ids : List Nat) (k : Nat) :
    List Suggestion :=
  sugs.filter fun s => s.unit_index = k ∧ s.id ∈ ids

/-- Per-unit application over the whole unit sequence, `k` tracking the
zero-based unit index. -/
def applyUnits (sugs : List Suggestion) (ids : List Nat) (k : Nat) :
    List (List Char) → List (List Char × List Nat × List Nat)
  | [] => []
  | t :: ts => applyUnit t (acceptedFor sugs ids k) :: applyUnits sugs ids (k + 1) ts

/-- Modelled from the spec: the apply result — the new session (unit
sequence swapped in one step), the applied count and the conflicted
identifiers (section 4.3, partial success with report). -/
structure ApplyOk where
  sess : Session
  appliedCount : Nat
  conflicts : List Nat
deriving DecidableEq, Repr

/-- Modelled from the spec: the change applicator
`apply(document_id, accepted ids)` of section 4.3 at session level.
An empty accepted set fails with `EmptySelectionError`; any identifier
not present in the current suggestion generation fails the whole call
with `StaleSuggestionError`; otherwise every unit is processed and the
mutated unit sequence replaces the old one atomically. -/
def applyCall (s : Session) (ids : List Nat) : Except ApplyError ApplyOk :=
  if ids = [] then .error .EmptySelectionError
  else if ids.all (fun i => s.sugs.any fun g => g.id = i) then
    let results := applyUnits s.sugs ids 0 s.units
    .ok { sess := { s with units := results.map (·.1) }
        , appliedCount := (results.map fun r => r.2.1.length).sum
        , conflicts := results.flatMap fun r => r.2.2 }
  else .error .StaleSuggestionError

/-- The session state after an apply call: the new session on success, the
unchanged session on any error (spec: a failed apply must not mutate the
document). -/
def applyState (s : Session) (ids : List Nat) : Session :=
  match applyCall s ids with
  | .ok r => r.sess
  | .error _ => s

/-! ## The React widget

Embedded from the two App component variants (the ChatGPT-embedded widget
and the standalone widget).  The selected-suggestion set is a JS `Set` of
suggestion identifier strings, modelled as a `Finset String`. -/

/-- Embeds `toggleSuggestion` (identical in both widget variants): copy
the previous set, delete the identifier if present, add it otherwise. -/
def toggleSuggestion (sid : String) (prev : Finset String) : Finset String :=
  if sid ∈ prev then prev.erase sid else insert sid prev

/-- The widget status values: `idle`, `applying`, `completed`, `error`. -/
inductive WStatus
  | idle
  | applying
  | completed
  | err
deriving DecidableEq, Repr

/-- The widget component state: the suggestion list and document
identifier received from the tool output, the selected-suggestion set,
the download URL, the status string, plus `inFlight`, the number of
apply requests issued and not yet resolved (not a React state variable;
it counts the pending promises of `handleApplyChanges`). -/
structure WState where
  suggestions : List String
  docId : Option String
  selected : Finset String
  downloadUrl : Option String
  status : WStatus
  inFlight : Nat
deriving DecidableEq

/-- The initial widget state (all `useState` initial values). -/
def winit : WState :=
  { suggestions := [], docId := none, selected := ∅,
    downloadUrl := none, status := .idle, inFlight := 0 }

/-- The events the widget reacts to: a checkbox toggle, a click on the
apply button, the resolution of a pending apply request (with or without
a download URL, or rejected), and an `openai:set_globals` push carrying
either a suggestions/doc-id tool output or a download URL. -/
inductive WEvent
  | toggle (sid : String)
  | clickApply
  | applyOk (url : String)
  | applyOkNoUrl
  | applyErr
  | globalsDoc (d : String) (sugs : List String)
  | globalsUrl (url : String)
deriving DecidableEq, Repr

/-- Embeds the apply-button guard `disabled={selectedSuggestions.size ===
0 || status === 'applying'}` of both widget variants. -/
def applyButtonDisabled (st : WState) : Bool :=
  decide (st.selected.card = 0) || decide (st.status = WStatus.applying)

/-- The apply button is rendered only when the suggestion list is nonempty
(the component returns the empty-state markup otherwise), so a click can
occur only when the button is rendered and enabled. -/
def clickPossible (st : WState) : Bool :=
  !(decide (st.suggestions = [])) && !(applyButtonDisabled st)

/-- Embeds `handleApplyChanges`: return before issuing a request when no
document id is set or the selection is empty, otherwise set status
`applying` and issue the apply request (one more request in flight). -/
def handleApplyChanges (st : WState) : WState :=
  if st.docId = none ∨ st.selected.card = 0 then st
  else { st with status := .applying, inFlight := st.inFlight + 1 }

/-- One widget transition.  `applyOk`/`applyOkNoUrl`/`applyErr` resolve a
pending request and can fire only when one is in flight; `globalsDoc` and
`globalsUrl` embed `handleSetGlobals`, which can fire at any time. -/
def wstep (st : WState) : WEvent → WState
  | .toggle sid => { st with selected := toggleSuggestion sid st.selected }
  | .clickApply => if clickPossible st then handleApplyChanges st else st
  | .applyOk url =>
      if st.inFlight = 0 then st
      else { st with
               inFlight := st.inFlight - 1
               downloadUrl := some url
               status := .completed }
  | .applyOkNoUrl =>
      if st.inFlight = 0 then st
      else { st with inFlight := st.inFlight - 1 }
  | .applyErr =>
      if st.inFlight = 0 then st
      else { st with inFlight := st.inFlight - 1, status := .err }
  | .globalsDoc d sugs => { st with docId := some d, suggestions := sugs }
  | .globalsUrl url =>
      { st with downloadUrl := some url, status := .completed }

/-- Run the widget from a state through a list of events. -/
def wrun (st : WState) : List WEvent → WState
  | [] => st
  | e :: es => wrun (wstep st e) es

/-- An event is benign when it is not an `openai:set_globals` push
carrying a download URL (the only event that moves the status away from
`applying` without resolving the pending request). -/
def benign : WEvent → Bool
  | .globalsUrl _ => false
  | _ => true

/-- The widget in-flight invariant: at most one apply request pending,
and a pending request forces status `applying` (which disables the
button). -/
def winv (st : WState) : Prop :=
  st.inFlight ≤ 1 ∧ (st.inFlight = 1 → st.status = .applying)

/-! ## The standalone widget download URL

Embedded from the standalone variant: after a successful apply the
download link is `API_BASE.replace(/\/api$/, '') + data.download_url`. -/

/-- The characters of the literal `/api`. -/
def apiChars : List Char := ['/', 'a', 'p', 'i']

/-- Embeds the anchored regex replacement `replace(/\/api$/, '')`: scan
left to right and delete the first position where the remaining text is
exactly `/api` (the anchored match). -/
def stripApiAux : List Char → List Char
  | [] => []
  | c :: cs => if c :: cs = apiChars then [] else c :: stripApiAux cs

/-- Embeds the download URL construction of the standalone
`handleApplyChanges`: the API base with the anchored `/api` replacement
applied, concatenated with the returned download path. -/
def buildDownloadUrl (base path : String) : String :=
  ⟨stripApiAux base.data ++ path.data⟩

/-- Stated from the claim: the API base with a single trailing `/api`
suffix removed when present, concatenated with the returned path. -/
def buildDownloadUrlSpec (base path : String) : String :=
  ⟨(if apiChars <:+ base.data
     then base.data.take (base.data.length - 4) else base.data) ++ path.data⟩

/-! ## Concrete data used by the scenario theorems and witnesses -/

/-- The 29-character unit text `I don't think that's correct.` of the
section 8 concrete scenario. -/
def unit5 : List Char :=
  ['I', ' ', 'd', 'o', 'n', apos, 't', ' ', 't', 'h', 'i', 'n', 'k', ' ',
   't', 'h', 'a', 't', apos, 's', ' ', 'c', 'o', 'r', 'r', 'e', 'c', 't', '.']

/-- The expected unit text `I do not think that's correct.` after applying
the contraction suggestion. -/
def unit5After : List Char :=
  ['I', ' ', 'd', 'o', ' ', 'n', 'o', 't', ' ', 't', 'h', 'i', 'n', 'k', ' ',
   't', 'h', 'a', 't', apos, 's', ' ', 'c', 'o', 'r', 'r', 'e', 'c', 't', '.']

/-- A unit text of exactly 31 one-letter words and no contractions. -/
def u31 : List Char := (List.replicate 30 ['w', ' ']).flatten ++ ['w']

/-- A one-suggestion session used to witness stale-generation rejection. -/
def c1S : Session := ⟨[['h', 'i']], [⟨0, 0, ['h'], ['H'], "caps"⟩], 1⟩

/-- The unit text `abcd` used to witness the overlap conflict. -/
def c2t : List Char := ['a', 'b', 'c', 'd']

/-- A suggestion on span `ab` (start offset 0) of `abcd`. -/
def c2s1 : Suggestion := ⟨1, 0, ['a', 'b'], ['X'], "r1"⟩

/-- A suggestion on span `bc` (start offset 1) of `abcd`, overlapping the
`ab` span. -/
def c2s2 : Suggestion := ⟨2, 0, ['b', 'c'], ['Y'], "r2"⟩

/-- A one-unit one-suggestion session used to witness the apply frame
property. -/
def c7S : Session := ⟨[['a', 'b']], [⟨0, 0, ['a'], ['X'], "caps"⟩], 1⟩

/-- The expected result of applying the single suggestion of `c7S`. -/
def c7R : ApplyOk := ⟨⟨[['X', 'b']], c7S.sugs, 1⟩, 1, []⟩

/-- The event trace that drives the widget into two concurrent apply
requests: receive suggestions, select one, click apply, receive a
`set_globals` push carrying a download URL mid-flight (status becomes
`completed`, re-enabling the button), click apply again. -/
def c9trace : List WEvent :=
  [.globalsDoc "d" ["s1"], .toggle "s1", .clickApply, .globalsUrl "u", .clickApply]

/-- A widget state with an apply in flight, used to witness the disabled
button. -/
def c9w1 : WState :=
  { suggestions := ["s1"], docId := some "d", selected := {"s1"},
    downloadUrl := none, status := .applying, inFlight := 1 }

/-! ## Helper lemmas -/

/-- Identifier assignment leaves the deterministic core of every
suggestion untouched. -/
theorem assignIds_map_core (l : List SugCore) :
    ∀ n : Nat, (assignIds n l).map Suggestion.core = l := by
  induction l with
  | nil => intro n; rfl
  | cons c cs ih =>
      intro n
      simp [assignIds, Suggestion.core, ih (n + 1)]

/-- Every identifier assigned from counter `n` is at least `n`. -/
theorem assignIds_le_id (l : List SugCore) :
    ∀ (n : Nat) (g : Suggestion), g ∈ assignIds n l → n ≤ g.id := by
  induction l with
  | nil => intro n g hg; cases hg
  | cons c cs ih =>
      intro n g hg
      rcases hg with _ | ⟨_, hg⟩
      · exact Nat.le_refl n
      · exact Nat.le_of_succ_le (ih (n + 1) g hg)

/-- Per-unit application preserves the number of units. -/
theorem applyUnits_length (sugs : List Suggestion) (ids : List Nat) :
    ∀ (us : List (List Char)) (k : Nat),
      (applyUnits sugs ids k us).length = us.length := by
  intro us
  induction us with
  | nil => intro k; rfl
  | cons t ts ih => intro k; simp [applyUnits, ih (k + 1)]

/-- Unit `j` of the per-unit application output is the application of the
suggestions accepted for index `k + j` to unit `j` of the input. -/
theorem applyUnits_getElem (sugs : List Suggestion) (ids : List Nat) :
    ∀ (us : List (List Char)) (k j : Nat),
      (applyUnits sugs ids k us)[j]?
        = (us[j]?).map fun t => applyUnit t (acceptedFor sugs ids (k + j)) := by
  intro us
  induction us with
  | nil => intro k j; simp [applyUnits]
  | cons t ts ih =>
      intro k j
      cases j with
      | zero => simp [applyUnits]
      | succ j =>
          simp only [applyUnits, List.getElem?_cons_succ, ih (k + 1) j,
            Nat.add_succ, Nat.succ_add]

/-! ## Claim theorems -/

/-- Claim C1: after a later analyze call has produced a new suggestion
generation for the document, applying any identifier from the prior
generation fails with `StaleSuggestionError` and leaves the session
(hence the unit sequence) unmutated.  `idsBelow` is the freshness
invariant that every live identifier is below the session's counter. -/
theorem claim_C1 (s : Session) (instr : String) (ids : List Nat) (i : Nat)
    (hwf : idsBelow s) (hold : ∃ g ∈ s.sugs, g.id = i) (hmem : i ∈ ids) :
    applyCall (analyze s instr) ids = .error .StaleSuggestionError
  ∧ applyState (analyze s instr) ids = analyze s instr := by
  have hne : ids ≠ [] := List.ne_nil_of_mem hmem
  have hi : i < s.nextId := by
    obtain ⟨g, hg, hgi⟩ := hold
    exact hgi ▸ hwf g hg
  have hsugs : (analyze s instr).sugs = assignIds s.nextId (generate s.units instr) := rfl
  have hfresh : ∀ g ∈ (analyze s instr).sugs, g.id ≠ i := by
    intro g hg
    rw [hsugs] at hg
    have := assignIds_le_id (generate s.units instr) s.nextId g hg
    omega
  have hall : ¬ ((ids.all fun j => (analyze s instr).sugs.any fun g => g.id = j) = true) := by
    intro hcontra
    rw [List.all_eq_true] at hcontra
    have hi2 := hcontra i hmem
    rw [List.any_eq_true] at hi2
    obtain ⟨g, hg, hgid⟩ := hi2
    exact hfresh g hg (by simpa using hgid)
  have h1 : applyCall (analyze s instr) ids = .error .StaleSuggestionError := by
    unfold applyCall
    rw [if_neg hne, if_neg hall]
  refine ⟨h1, ?_⟩
  unfold applyState
  rw [h1]

/-- Witness for C1: the one-suggestion session `c1S` re-analyzed; its old
identifier 0 is rejected as stale. -/
theorem claim_C1_witness :
    idsBelow c1S
  ∧ (∃ g ∈ c1S.sugs, g.id = 0)
  ∧ 0 ∈ [0]
  ∧ applyCall (analyze c1S "x") [0] = .error .StaleSuggestionError :=
  ⟨by decide, by decide, by decide,
   (claim_C1 c1S "x" [0] 0 (by decide) (by decide) (by decide)).1⟩

/-- Claim C6: a unit of exactly 31 words with no contraction occurrence
yields exactly one suggestion from analyze, with rationale
"shorten long passage" and in particular none with the contraction
rationale (the length rule fires strictly above the 30-word
threshold). -/
theorem claim_C6 (s : Session) (u : List Char) (instr : String)
    (hu : s.units = [u]) (hw : wordCount u = 31)
    (hc : occurrences dontChars u = []) :
    (analyze s instr).sugs = [⟨s.nextId, 0, u, shorten u, "shorten long passage"⟩] := by
  simp [analyze, generate, generateFrom, unitSuggestions, contractions, hu, hc, hw, assignIds]

/-- Witness for C6 at the concrete 31-word unit `u31`. -/
theorem claim_C6_witness :
    wordCount u31 = 31
  ∧ occurrences dontChars u31 = []
  ∧ (analyze ⟨[u31], [], 0⟩ "shorten").sugs
      = [⟨0, 0, u31, shorten u31, "shorten long passage"⟩] :=
  ⟨by decide, by decide,
   claim_C6 ⟨[u31], [], 0⟩ u31 "shorten" rfl (by decide) (by decide)⟩

/-- Claim C7: a successful apply call leaves the unit count unchanged and
transforms each unit in place (unit `j` of the result is the per-unit
application of the suggestions accepted for index `j` to old unit `j`),
so unit indices stay zero-based, dense and stable — no removal, split,
merge or reorder of units. -/
theorem claim_C7 (s : Session) (ids : List Nat) (r : ApplyOk)
    (h : applyCall s ids = .ok r) :
    r.sess.units.length = s.units.length
  ∧ ∀ j, r.sess.units[j]?
      = (s.units[j]?).map fun t => (applyUnit t (acceptedFor s.sugs ids j)).1 := by
  unfold applyCall at h
  by_cases hne : ids = []
  · rw [if_pos hne] at h; cases h
  · rw [if_neg hne] at h
    by_cases hall : (ids.all fun i => s.sugs.any fun g => g.id = i) = true
    · rw [if_pos hall] at h
      simp only [Except.ok.injEq] at h
      subst h
      refine ⟨?_, ?_⟩
      · simp [applyUnits_length]
      · intro j
        simp only [List.getElem?_map, applyUnits_getElem, Option.map_map,
          Nat.zero_add]
        rfl
    · rw [if_neg hall] at h; cases h

/-- Witness for C7 at the one-unit session `c7S` whose apply succeeds with
result `c7R`. -/
theorem claim_C7_witness :
    applyCall c7S [0] = .ok c7R
  ∧ c7R.sess.units.length = c7S.units.length
  ∧ c7R.sess.units[0]?
      = (c7S.units[0]?).map fun t => (applyUnit t (acceptedFor c7S.sugs [0] 0)).1 :=
  ⟨rfl, (claim_C7 c7S [0] c7R rfl).1, (claim_C7 c7S [0] c7R rfl).2 0⟩

/-- Claim C2: for a unit with two accepted suggestions whose resolved
original spans overlap (span starts `a ≤ b` with `b` inside the first
span), apply succeeds, applies exactly the first span in ascending
start-offset order (applied count 1, unit text rebuilt from the first
span only) and reports the later one as the single `ConflictError`,
while the rest of the batch still proceeds. -/
theorem claim_C2 (t : List Char) (s1 s2 : Suggestion) (a b n : Nat)
    (hu1 : s1.unit_index = 0) (hu2 : s2.unit_index = 0)
    (h1 : firstOcc s1.original t = some a)
    (h2 : firstOcc s2.original t = some b)
    (hab : a ≤ b) (hov : b < a + s1.original.length) :
    applyCall ⟨[t], [s1, s2], n⟩ [s1.id, s2.id]
      = .ok ⟨⟨[rebuild t 0 [(s1, a)]], [s1, s2], n⟩, 1, [s2.id]⟩ := by
  have hr : ([s1, s2] : List Suggestion).filterMap
      (fun s => (firstOcc s.original t).map fun st => (s, st)) = [(s1, a), (s2, b)] := by
    simp [List.filterMap_cons, h1, h2]
  have hnf : (([s1, s2] : List Suggestion).filter
      fun s => firstOcc s.original t = none) = [] := by
    simp [List.filter_cons, h1, h2]
  have hsort : sortByStart [(s1, a), (s2, b)] = [(s1, a), (s2, b)] := by
    simp [sortByStart, insertByStart, hab]
  have hsweep : sweep 0 [(s1, a), (s2, b)] = ([(s1, a)], [s2.id]) := by
    simp only [sweep]
    rw [if_neg (Nat.not_lt_zero a), if_pos hov]
  have hunit : applyUnit t [s1, s2] = (rebuild t 0 [(s1, a)], [s1.id], [s2.id]) := by
    unfold applyUnit
    rw [hr, hnf]
    dsimp only
    rw [hsort, hsweep]
    simp
  have haccept : acceptedFor [s1, s2] [s1.id, s2.id] 0 = [s1, s2] := by
    simp [acceptedFor, List.filter_cons, hu1, hu2]
  unfold applyCall
  rw [if_neg (by simp : ([s1.id, s2.id] : List Nat) ≠ [])]
  rw [if_pos (by simp : (([s1.id, s2.id] : List Nat).all
        fun i => (([s1, s2] : List Suggestion).any fun g => g.id = i)) = true)]
  simp only [applyUnits, haccept, hunit]
  rfl

/-- Witness for C2: spans `ab` (start 0) and `bc` (start 1) of `abcd`
overlap; applying both applies the first and conflicts the second. -/
theorem claim_C2_witness :
    c2s1.unit_index = 0 ∧ c2s2.unit_index = 0
  ∧ firstOcc c2s1.original c2t = some 0
  ∧ firstOcc c2s2.original c2t = some 1
  ∧ 0 ≤ 1 ∧ 1 < 0 + c2s1.original.length
  ∧ applyCall ⟨[c2t], [c2s1, c2s2], 3⟩ [c2s1.id, c2s2.id]
      = .ok ⟨⟨[rebuild c2t 0 [(c2s1, 0)]], [c2s1, c2s2], 3⟩, 1, [c2s2.id]⟩ :=
  ⟨rfl, rfl, by decide, by decide, by decide, by decide,
   claim_C2 c2t c2s1 c2s2 0 1 3 rfl rfl (by decide) (by decide) (by decide) (by decide)⟩

/-- Claim C3: for every document, apply with an empty accepted set fails
with `EmptySelectionError` and leaves the session (hence the unit
sequence) unchanged — and, the call returning an error, no artifact is
produced; in the widget, `handleApplyChanges` returns early when zero
suggestions are selected, so a click issues no request. -/
theorem claim_C3 (s : Session) (w : WState) :
    applyCall s [] = .error .EmptySelectionError
  ∧ applyState s [] = s
  ∧ (w.selected.card = 0 → handleApplyChanges w = w ∧ wstep w .clickApply = w) := by
  refine ⟨rfl, ?_, ?_⟩
  · unfold applyState
    rw [show applyCall s [] = .error .EmptySelectionError from rfl]
  · intro h
    refine ⟨?_, ?_⟩
    · unfold handleApplyChanges
      rw [if_pos (Or.inr h)]
    · simp [wstep, clickPossible, applyButtonDisabled, h]

/-- Witness for C3 at the empty session and the initial widget state. -/
theorem claim_C3_witness :
    winit.selected.card = 0
  ∧ applyCall ⟨[], [], 0⟩ [] = .error .EmptySelectionError
  ∧ applyState ⟨[], [], 0⟩ [] = ⟨[], [], 0⟩
  ∧ handleApplyChanges winit = winit
  ∧ wstep winit .clickApply = winit :=
  ⟨by decide, (claim_C3 ⟨[], [], 0⟩ winit).1, (claim_C3 ⟨[], [], 0⟩ winit).2.1,
   ((claim_C3 ⟨[], [], 0⟩ winit).2.2 (by decide)).1,
   ((claim_C3 ⟨[], [], 0⟩ winit).2.2 (by decide)).2⟩

/-- Claim C4: two runs of the generator-with-fresh-identifiers on the same
unit sequence and instruction (sessions differing only in their
identifier counter and cached state) produce suggestion lists whose
(unit index, original, proposed, rationale) cores are identical in
content and order; only identifiers may differ. -/
theorem claim_C4 (s1 s2 : Session) (instr : String) (h : s1.units = s2.units) :
    ((analyze s1 instr).sugs).map Suggestion.core
      = ((analyze s2 instr).sugs).map Suggestion.core := by
  unfold analyze
  simp only [assignIds_map_core, h]

/-- Witness for C4: the same one-unit document analyzed from identifier
counters 0 and 5 yields identical suggestion cores. -/
theorem claim_C4_witness :
    (Session.mk [unit5] [] 0).units = (Session.mk [unit5] [⟨0, 0, ['h'], ['h'], "old"⟩] 5).units
  ∧ ((analyze ⟨[unit5], [], 0⟩ "formalize").sugs).map Suggestion.core
      = ((analyze ⟨[unit5], [⟨0, 0, ['h'], ['h'], "old"⟩], 5⟩ "formalize").sugs).map Suggestion.core :=
  ⟨rfl, claim_C4 ⟨[unit5], [], 0⟩ ⟨[unit5], [⟨0, 0, ['h'], ['h'], "old"⟩], 5⟩ "formalize" rfl⟩

/-- Claim C5: analyzing the one-unit document `I don't think that's
correct.` with instruction "formalize" yields exactly one suggestion,
original `don't`, proposed `do not`, and applying it yields unit text
`I do not think that's correct.` with an applied count of 1. -/
theorem claim_C5 :
    (analyze ⟨[unit5], [], 0⟩ "formalize").sugs
        = [⟨0, 0, dontChars, doNotChars, "expand contraction"⟩]
  ∧ applyCall (analyze ⟨[unit5], [], 0⟩ "formalize") [0]
        = .ok ⟨⟨[unit5After], [⟨0, 0, dontChars, doNotChars, "expand contraction"⟩], 1⟩, 1, []⟩ :=
  ⟨rfl, rfl⟩

/-- Claim C8: `toggleSuggestion` (identical in both widget variants) is an
involution on the selected-suggestion set: it adds the identifier exactly
when absent and removes it exactly when present, two successive calls
restore the set, and no other membership changes. -/
theorem claim_C8 (sid : String) (P : Finset String) (x : String) :
    toggleSuggestion sid (toggleSuggestion sid P) = P
  ∧ (sid ∈ toggleSuggestion sid P ↔ sid ∉ P)
  ∧ (x ≠ sid → (x ∈ toggleSuggestion sid P ↔ x ∈ P)) := by
  unfold toggleSuggestion
  by_cases h : sid ∈ P
  · refine ⟨?_, ?_, ?_⟩
    · simp [h, Finset.insert_erase h]
    · simp [h]
    · intro hx
      simp [h, Finset.mem_erase, hx]
  · refine ⟨?_, ?_, ?_⟩
    · simp [h, Finset.erase_insert h]
    · simp [h]
    · intro hx
      simp [h, Finset.mem_insert, hx]

/-- Witness for C8 at a concrete identifier and selection set. -/
theorem claim_C8_witness :
    toggleSuggestion "a" (toggleSuggestion "a" {"b"}) = {"b"}
  ∧ ("a" ∈ toggleSuggestion "a" {"b"} ↔ "a" ∉ ({"b"} : Finset String))
  ∧ ("b" ∈ toggleSuggestion "a" {"b"} ↔ "b" ∈ ({"b"} : Finset String)) :=
  ⟨(claim_C8 "a" {"b"} "b").1, (claim_C8 "a" {"b"} "b").2.1,
   (claim_C8 "a" {"b"} "b").2.2 (by decide)⟩

/-- A benign widget transition preserves the in-flight invariant. -/
theorem winv_step (st : WState) (e : WEvent) (hb : benign e = true)
    (h : winv st) : winv (wstep st e) := by
  obtain ⟨h1, h2⟩ := h
  cases e with
  | toggle sid => exact ⟨h1, h2⟩
  | clickApply =>
      by_cases hc : clickPossible st = true
      · have hna : ¬ st.status = WStatus.applying := by
          simp [clickPossible, applyButtonDisabled] at hc
          exact hc.2.2
        have hz : st.inFlight = 0 := by
          rcases Nat.lt_or_ge st.inFlight 1 with hlt | hge
          · omega
          · exact absurd (h2 (by omega)) hna
        simp only [wstep, hc, if_true]
        unfold handleApplyChanges
        by_cases hd : st.docId = none ∨ st.selected.card = 0
        · rw [if_pos hd]; exact ⟨h1, h2⟩
        · rw [if_neg hd]
          exact ⟨by simp [hz], fun _ => rfl⟩
      · simp only [wstep, hc, if_false]
        exact ⟨h1, h2⟩
  | applyOk url =>
      by_cases hz : st.inFlight = 0
      · simp only [wstep, hz, if_pos]; exact ⟨h1, h2⟩
      · simp only [wstep, if_neg hz]
        refine ⟨?_, fun hcontra => ?_⟩
        · show st.inFlight - 1 ≤ 1
          omega
        · have hx : st.inFlight - 1 = 1 := hcontra
          exact absurd hx (by omega)
  | applyOkNoUrl =>
      by_cases hz : st.inFlight = 0
      · simp only [wstep, hz, if_pos]; exact ⟨h1, h2⟩
      · simp only [wstep, if_neg hz]
        refine ⟨?_, fun hcontra => ?_⟩
        · show st.inFlight - 1 ≤ 1
          omega
        · have hx : st.inFlight - 1 = 1 := hcontra
          exact absurd hx (by omega)
  | applyErr =>
      by_cases hz : st.inFlight = 0
      · simp only [wstep, hz, if_pos]; exact ⟨h1, h2⟩
      · simp only [wstep, if_neg hz]
        refine ⟨?_, fun hcontra => ?_⟩
        · show st.inFlight - 1 ≤ 1
          omega
        · have hx : st.inFlight - 1 = 1 := hcontra
          exact absurd hx (by omega)
  | globalsDoc d sugs => exact ⟨h1, h2⟩
  | globalsUrl url => simp [benign] at hb

/-- A run of benign events preserves the in-flight invariant. -/
theorem winv_run (evs : List WEvent) :
    ∀ st : WState, winv st → (∀ e ∈ evs, benign e = true) →
      winv (wrun st evs) := by
  induction evs with
  | nil => intro st h _; exact h
  | cons e es ih =>
      intro st h hb
      exact ih (wstep st e) (winv_step st e (hb e (by simp)) h)
        fun x hx => hb x (by simp [hx])

/-- Claim C9 (amended): the apply button is disabled while the status is
`applying` or no suggestion is selected; `handleApplyChanges` returns
without issuing a request when no document id is set or the selection is
empty; and along every event trace free of `openai:set_globals` pushes
carrying a download URL, at most one apply request is ever in flight.
(The proviso is forced: such a push sets the status to `completed` while
a request is still pending, re-enabling the button.) -/
theorem claim_C9_amended :
    (∀ st : WState, st.status = .applying ∨ st.selected.card = 0 →
        applyButtonDisabled st = true)
  ∧ (∀ st : WState, st.docId = none ∨ st.selected.card = 0 →
        handleApplyChanges st = st)
  ∧ (∀ evs : List WEvent, (∀ e ∈ evs, benign e = true) →
        (wrun winit evs).inFlight ≤ 1) := by
  refine ⟨?_, ?_, ?_⟩
  · intro st h
    unfold applyButtonDisabled
    rcases h with h | h <;> simp [h]
  · intro st h
    unfold handleApplyChanges
    rw [if_pos h]
  · intro evs hb
    have hinit : winv winit := ⟨by decide, fun h => absurd h (by decide)⟩
    exact (winv_run evs winit hinit hb).1

/-- Counterexample to C9 as stated: the concrete reachable trace
`c9trace` (click apply, then a `set_globals` push with a download URL
arrives mid-flight, then click apply again) ends with two apply requests
in flight. -/
theorem claim_C9_counterexample : (wrun winit c9trace).inFlight = 2 := by
  decide

/-- Witness for the amended C9 at concrete states and a concrete benign
trace. -/
theorem claim_C9_witness :
    applyButtonDisabled c9w1 = true
  ∧ handleApplyChanges winit = winit
  ∧ (wrun winit [.toggle "s"]).inFlight ≤ 1 :=
  ⟨claim_C9_amended.1 c9w1 (Or.inl rfl),
   claim_C9_amended.2.1 winit (Or.inl rfl),
   claim_C9_amended.2.2 [.toggle "s"] (by decide)⟩

/-- The left-to-right anchored scan equals the suffix-conditional strip:
delete the final four characters exactly when the text ends in `/api`. -/
theorem stripApiAux_eq (cs : List Char) :
    stripApiAux cs = if apiChars <:+ cs then cs.take (cs.length - 4) else cs := by
  induction cs with
  | nil =>
      have hns : ¬ (apiChars <:+ ([] : List Char)) := by
        simp [List.suffix_nil, apiChars]
      rw [if_neg hns]
      rfl
  | cons c cs ih =>
      by_cases hc : c :: cs = apiChars
      · have hs : apiChars <:+ c :: cs := by rw [hc]
        simp only [stripApiAux, if_pos hc, if_pos hs]
        rw [hc]
        decide
      · simp only [stripApiAux, if_neg hc, ih]
        by_cases hsuf : apiChars <:+ cs
        · have hs : apiChars <:+ c :: cs :=
            hsuf.trans (List.suffix_cons c cs)
          have h4 : 4 ≤ cs.length := by
            have := hsuf.length_le
            simpa [apiChars] using this
          rw [if_pos hsuf, if_pos hs, List.length_cons,
            show cs.length + 1 - 4 = (cs.length - 4) + 1 by omega,
            List.take_succ_cons]
        · have hns : ¬ (apiChars <:+ c :: cs) := by
            intro hcontra
            rcases List.suffix_cons_iff.mp hcontra with h | h
            · exact hc h.symm
            · exact hsuf h
          rw [if_neg hsuf, if_neg hns]

/-- Claim C10: for every API base string and returned download path, the
download URL built by the standalone widget (the anchored regex
replacement `replace(/\/api$/, '')` followed by concatenation) equals
the API base with a single trailing `/api` suffix removed when present,
concatenated with the path. -/
theorem claim_C10 (base path : String) :
    buildDownloadUrl base path = buildDownloadUrlSpec base path := by
  unfold buildDownloadUrl buildDownloadUrlSpec
  rw [stripApiAux_eq]

end DocxAgent
